import Mathlib

/-!
Verification of the square asset-bundling build engine (lib/square.js)
against its natural-language specification.

The development shallowly embeds the relevant parts of `lib/square.js`:
JavaScript strings become Lean `String`s (manipulated through their
character lists), objects become association lists, fallible code returns
an explicit outcome type, and the asynchronous-but-sequential control flow
(`async.forEachSeries`, `async.reduce`) becomes explicit folds.
-/

namespace SquareJS

/-! ## JavaScript string primitives -/

/-- Whitespace as recognised by trimming and by the regex class used in
`lib/square.js` (space, tab, newline, carriage return cover every use in
this development). -/
def jsIsSpace (c : Char) : Bool :=
  c = ' ' || c = '\t' || c = '\n' || c = '\r'

/-- JavaScript `String.prototype.trim`. -/
def jsTrim (s : String) : String :=
  (((s.toList.dropWhile jsIsSpace).reverse.dropWhile jsIsSpace).reverse).asString

/-- JavaScript `str.charAt(i)`; `none` models the empty (falsy) string that
`charAt` yields out of range. -/
def jsCharAt (s : String) (i : Nat) : Option Char :=
  s.toList.get? i

/-- Last character of a string, if any. -/
def jsLastChar (s : String) : Option Char :=
  s.toList.getLast?

/-- JavaScript `String.prototype.split` on a character class:
`"a\nb".split(/\n|\r/g)` style splitting, keeping empty pieces. -/
def jsSplitGo (isSep : Char → Bool) : List Char → List Char → List String
  | [], acc => [acc.reverse.asString]
  | c :: cs, acc =>
    if isSep c then acc.reverse.asString :: jsSplitGo isSep cs []
    else jsSplitGo isSep cs (c :: acc)

/-- Split a string at every character satisfying `isSep`. -/
def jsSplit (isSep : Char → Bool) (s : String) : List String :=
  jsSplitGo isSep s.toList []

/-! ## C1 — `Square.prototype.semicolon` and the join step of `reduce`
(lib/square.js lines 581-599 and 557-568). -/

/-- Embedding of `Square.prototype.semicolon` (lines 581-599): note that the
source inspects `content.trim().charAt(content.length - 1)` — the character
position is taken from the UNtrimmed length — and only appends `;` when that
character exists, differs from `;`, and is `)` or `}`. -/
def semicolon (content : String) : String :=
  if content = "" then ""
  else
    let ch := jsCharAt (jsTrim content) (content.length - 1)
    if ch ≠ none ∧ ch ≠ some ';' ∧ (ch = some ')' ∨ ch = some '}')
    then content ++ ";"
    else content

/-- One iteration of the accumulation in `Square.prototype.reduce` for a
js-output bundle (lines 563-566): the running document is passed through
`semicolon`, the new fragment is appended after a newline, and the result
is trimmed. -/
def reduceAppend (memo content : String) : String :=
  jsTrim (semicolon memo ++ "\n" ++ content)

/-- The whole js accumulation of `Square.prototype.reduce` over the
pre-processed fragments, in tree order, starting from the empty placeholder
that line 555 installs. -/
def reduceConcatJS (fragments : List String) : String :=
  fragments.foldl reduceAppend ""

/-! ## C2 / C3 — the transform pipeline executor
`Square.prototype.forEach` (lib/square.js lines 371-410). -/

/-- The collection object handed through the middleware pipeline. -/
structure Collection where
  content : String
  extension : String
deriving DecidableEq, Repr

/-- What one middleware layer reports through its `yep(err, result)`
continuation (a layer that throws is captured by the `try`/`catch` at
lines 396-397 and surfaces as an error with no result). -/
structure LayerOutcome where
  err : Option String
  result : Option Collection

/-- A middleware layer together with a name used only to record which
layers were invoked. -/
structure Layer where
  name : String
  run : Collection → LayerOutcome

/-- Embedding of the `async.forEachSeries` loop inside
`Square.prototype.forEach`: `collection` and `backup` are the two mutable
variables of the source, the trace records the invoked layer names, and the
series stops at the first layer that reports an error. From `yep`
(lines 386-391): a produced result updates both variables, no result rolls
`collection` back to `backup`. -/
def forEachGo : List Layer → Collection → Collection → List String →
    Option String × Collection × List String
  | [], collection, _backup, trace => (none, collection, trace)
  | layer :: rest, collection, backup, trace =>
    let out := layer.run collection
    let next : Collection × Collection :=
      match out.result with
      | some r => (r, r)
      | none => (backup, backup)
    match out.err with
    | some e => (some e, next.1, trace ++ [layer.name])
    | none => forEachGo rest next.1 next.2 (trace ++ [layer.name])

/-- `Square.prototype.forEach` (lines 371-410): seeds both `collection` and
`backup` with the argument and runs the middleware in order; the first
component is the error handed to the callback, the second the collection it
receives. -/
def forEach (layers : List Layer) (collection : Collection) :
    Option String × Collection × List String :=
  forEachGo layers collection collection []

/-- A stage that appends a suffix to the content and returns the changed
collection. -/
def addSuffix (name suffix : String) : Layer :=
  ⟨name, fun c => ⟨none, some { c with content := c.content ++ suffix }⟩⟩

/-- A stage that declines to act: it calls back with neither error nor
result. -/
def noopLayer : Layer :=
  ⟨"noop", fun _ => ⟨none, none⟩⟩

/-- A stage that fails: its callback receives an error and no result
(also the shape produced when a layer throws, lines 396-397). -/
def throwsLayer (name msg : String) : Layer :=
  ⟨name, fun _ => ⟨some msg, none⟩⟩

/-! ## Theorems about C1 -/

theorem jsCharAt_last (s : String) : jsCharAt s (s.length - 1) = jsLastChar s := by
  simp [jsCharAt, jsLastChar, List.get?_eq_getElem?, List.getLast?_eq_getElem?]

/-- C1 counterexample: reducing two js fragments `"var a=1"` and
`"var b=2"` yields `"var a=1\nvar b=2"` — no statement terminator is
inserted at the join boundary, contradicting the claimed
`"var a=1;\nvar b=2;"`. -/
theorem reduce_semicolon_counterexample :
    reduceConcatJS ["var a=1", "var b=2"] = "var a=1\nvar b=2" ∧
    "var a=1\nvar b=2" ≠ "var a=1;\nvar b=2;" :=
  ⟨rfl, by decide⟩

theorem semicolon_appends (memo : String) (htrim : jsTrim memo = memo)
    (hlast : jsLastChar memo = some ')' ∨ jsLastChar memo = some '}') :
    semicolon memo = memo ++ ";" := by
  have hne : memo ≠ "" := by
    intro h
    subst h
    simp [jsLastChar] at hlast
  unfold semicolon
  rw [if_neg hne, htrim, jsCharAt_last]
  rcases hlast with h | h <;> simp [h]

theorem semicolon_keeps (memo : String) (htrim : jsTrim memo = memo)
    (hp : jsLastChar memo ≠ some ')') (hb : jsLastChar memo ≠ some '}') :
    semicolon memo = memo := by
  by_cases hne : memo = ""
  · subst hne; rfl
  · unfold semicolon
    rw [if_neg hne, htrim, jsCharAt_last, if_neg]
    rintro ⟨-, -, h | h⟩
    · exact hp h
    · exact hb h

/-- C1 amended: for js output the reducer inserts a statement terminator at
a join boundary only when the (trimmed) document so far ends with `)` or
`}`; a previous fragment ending any other way — terminator or not — is
joined unchanged. In particular `"var a=1"` + `"var b=2"` gives
`"var a=1\nvar b=2"` while `"var a=f()"` + `"var b=2"` gives
`"var a=f();\nvar b=2"`. -/
theorem reduce_semicolon_amended :
    (∀ memo content : String, jsTrim memo = memo →
      (jsLastChar memo = some ')' ∨ jsLastChar memo = some '}') →
      reduceAppend memo content = jsTrim (memo ++ ";" ++ "\n" ++ content)) ∧
    (∀ memo content : String, jsTrim memo = memo →
      jsLastChar memo ≠ some ')' → jsLastChar memo ≠ some '}' →
      reduceAppend memo content = jsTrim (memo ++ "\n" ++ content)) ∧
    reduceConcatJS ["var a=f()", "var b=2"] = "var a=f();\nvar b=2" := by
  refine ⟨?_, ?_, rfl⟩
  · intro memo content htrim hlast
    unfold reduceAppend
    rw [semicolon_appends memo htrim hlast]
  · intro memo content htrim hp hb
    unfold reduceAppend
    rw [semicolon_keeps memo htrim hp hb]

/-- Witness for `reduce_semicolon_amended`: instantiated at the concrete
trimmed documents `"var a=f()"` and `"var a=1"`. -/
theorem reduce_semicolon_amended_witness :
    reduceAppend "var a=f()" "var b=2" = jsTrim ("var a=f()" ++ ";" ++ "\n" ++ "var b=2") ∧
    reduceAppend "var a=1" "var b=2" = jsTrim ("var a=1" ++ "\n" ++ "var b=2") :=
  ⟨reduce_semicolon_amended.1 "var a=f()" "var b=2" (by decide) (by decide),
   reduce_semicolon_amended.2.1 "var a=1" "var b=2" (by decide) (by decide) (by decide)⟩

/-! ## Theorems about C2 and C3 -/

/-- The part of a `forEach` run visible to the caller's callback: the error
and the final collection (the invocation trace is bookkeeping of the
model). -/
def outcomeOf (r : Option String × Collection × List String) :
    Option String × Collection :=
  (r.1, r.2.1)

theorem forEachGo_trace (layers : List Layer) (c b : Collection) (t : List String) :
    outcomeOf (forEachGo layers c b t) = outcomeOf (forEachGo layers c b []) := by
  induction layers generalizing c b t with
  | nil => rfl
  | cons l rest ih =>
    simp only [forEachGo]
    cases herr : (l.run c).err
    · cases hres : (l.run c).result <;>
        simp only [herr, hres] <;>
        exact (ih _ _ _).trans (ih _ _ _).symm
    · cases hres : (l.run c).result <;> simp [herr, hres, outcomeOf]

theorem forEachGo_noop (pre post : List Layer) (c : Collection) (t : List String) :
    outcomeOf (forEachGo (pre ++ noopLayer :: post) c c t) =
      outcomeOf (forEachGo (pre ++ post) c c t) := by
  induction pre generalizing c t with
  | nil =>
    simp only [List.nil_append, forEachGo, noopLayer]
    exact (forEachGo_trace post c c _).trans (forEachGo_trace post c c t).symm
  | cons l pre ih =>
    simp only [List.cons_append, forEachGo]
    cases herr : (l.run c).err
    · cases hres : (l.run c).result <;> simp only [herr, hres] <;> exact ih _ _
    · cases hres : (l.run c).result <;> simp [herr, hres]

/-- C2: a middleware stage that declines to act is transparent — deleting
it anywhere in the pipeline changes neither the reported error nor the
final collection — and over content `"C"` the stages
`[addSuffix "X", noop, addSuffix "Y"]` produce `"CXY"`: the working value
after the no-op reverts to the value produced before it, never discarding
earlier stages' work. -/
theorem pipeline_noop_transparent :
    (∀ (pre post : List Layer) (c : Collection),
      outcomeOf (forEach (pre ++ noopLayer :: post) c) =
        outcomeOf (forEach (pre ++ post) c)) ∧
    forEach [addSuffix "addX" "X", noopLayer, addSuffix "addY" "Y"] ⟨"C", "js"⟩
      = (none, ⟨"CXY", "js"⟩, ["addX", "noop", "addY"]) :=
  ⟨fun pre post c => forEachGo_noop pre post c [], rfl⟩

/-- C3: after a successful stage, a stage that reports (or throws) an error
stops the series — whatever stages follow are never invoked (the invocation
trace is `["ok", "boom"]` for every tail) — and the callback receives both
the error and the last successfully produced collection. -/
theorem pipeline_error_short_circuit :
    (∀ (post : List Layer) (c : Collection),
      forEach (addSuffix "ok" "!" :: throwsLayer "boom" "boom" :: post) c
        = (some "boom", ⟨c.content ++ "!", c.extension⟩, ["ok", "boom"])) ∧
    forEach [addSuffix "ok" "!", throwsLayer "boom" "boom", addSuffix "neverRun" "Z"]
        ⟨"C", "js"⟩
      = (some "boom", ⟨"C!", "js"⟩, ["ok", "boom"]) :=
  ⟨fun _ _ => rfl, rfl⟩

/-! ## JavaScript values and objects -/

/-- A JavaScript value, as far as this development needs one: `undefined`,
strings, integer numbers, plain objects (ordered key/value fields) and
arrays. -/
inductive JsVal where
  | jsUndefined : JsVal
  | str : String → JsVal
  | num : Int → JsVal
  | obj : List (String × JsVal) → JsVal
  | arr : List JsVal → JsVal

/-- Property assignment `o[k] = v` on a plain object: replaces the first
binding of `k` in place, or appends a fresh binding. -/
def jsSetProp : List (String × JsVal) → String → JsVal → List (String × JsVal)
  | [], k, v => [(k, v)]
  | (k', v') :: rest, k, v =>
    if k' = k then (k, v) :: rest else (k', v') :: jsSetProp rest k v

/-- Property lookup on a plain object, `none` when the key is absent. -/
def jsProp? (o : List (String × JsVal)) (k : String) : Option JsVal :=
  (o.find? (fun p => p.1 = k)).map (fun p => p.2)

/-- lodash `_.extend(target, source)`: every own property of `source` is
assigned onto `target`, later sources winning. -/
def jsExtend (target source : List (String × JsVal)) : List (String × JsVal) :=
  source.foldl (fun o p => jsSetProp o p.1 p.2) target

/-! ## C10 — the `Square` constructor (lib/square.js lines 76-130). -/

/-- Embedding of the `Square` constructor: the instance starts from the
fields the constructor installed before the extend (`cache`, `logger`,
`eson`, ... — abstracted as `base`), `_.extend(this, options)` copies every
option onto it (line 123), and lines 126-129 then assign `config`,
`middleware`, `storages` and `package` unconditionally. `staticConfig`
stands for the external `require('../static')` value. -/
def squareConstruct (base : List (String × JsVal)) (staticConfig : JsVal)
    (options : List (String × JsVal)) : List (String × JsVal) :=
  let inst := jsExtend base options
  let inst := jsSetProp inst "config" staticConfig
  let inst := jsSetProp inst "middleware" (.arr [])
  let inst := jsSetProp inst "storages" (.arr [])
  jsSetProp inst "package" (.obj [])

theorem jsProp_setProp_same (o : List (String × JsVal)) (k : String) (v : JsVal) :
    jsProp? (jsSetProp o k v) k = some v := by
  induction o with
  | nil => simp [jsSetProp, jsProp?]
  | cons p rest ih =>
    by_cases h : p.1 = k
    · simp [jsSetProp, h, jsProp?]
    · simpa [jsSetProp, h, jsProp?] using ih

theorem jsProp_setProp_other (o : List (String × JsVal)) (k k' : String) (v : JsVal)
    (h : k ≠ k') : jsProp? (jsSetProp o k v) k' = jsProp? o k' := by
  induction o with
  | nil => simp [jsSetProp, jsProp?, h]
  | cons p rest ih =>
    by_cases hp : p.1 = k
    · simp [jsSetProp, hp, jsProp?, h, Ne.symm h]
    · by_cases hp' : p.1 = k'
      · simp [jsSetProp, hp, jsProp?, hp', Ne.symm h]
      · simpa [jsSetProp, hp, jsProp?, hp'] using ih

/-- C10: whatever options are passed to the constructor (and whatever the
pre-extend fields hold), the constructed instance's `config`, `middleware`,
`storages` and `package` are the defaults — the static configuration, an
empty middleware list, an empty storages list and an empty package — so
constructor options can never override these fields. -/
theorem constructor_private_fields (base : List (String × JsVal))
    (staticConfig : JsVal) (options : List (String × JsVal)) :
    jsProp? (squareConstruct base staticConfig options) "config" = some staticConfig ∧
    jsProp? (squareConstruct base staticConfig options) "middleware" = some (.arr []) ∧
    jsProp? (squareConstruct base staticConfig options) "storages" = some (.arr []) ∧
    jsProp? (squareConstruct base staticConfig options) "package" = some (.obj []) := by
  unfold squareConstruct
  refine ⟨?_, ?_, ?_, ?_⟩ <;>
    simp [jsProp_setProp_same, jsProp_setProp_other, String.ext_iff]

/-! ## C5 — `bundle` declared as a list (lib/square.js lines 699-703,
856-868 and 714-718). -/

/-- Outcome of a piece of JavaScript that can throw a `TypeError`. -/
inductive JsOutcome (α : Type) where
  | ok : α → JsOutcome α
  | typeError : JsOutcome α
deriving DecidableEq, Repr

/-- A bundle object as produced by `Square.prototype.createBundle`. -/
structure ListBundle where
  description : String
  weight : Int
deriving DecidableEq, Repr

/-- Embedding of `Square.prototype.createBundle` (lines 856-868):
`+index || (...)` takes the index when it is non-zero and otherwise falls
back to the key count of `this.package.bundle` when that is a non-array
object, else `1`. `pkgIsList`/`pkgKeys` describe `this.package.bundle` at
call time. -/
def createBundle (pkgIsList : Bool) (pkgKeys : Nat) (_file : String)
    (index : Nat) : ListBundle :=
  { description := "This file description has been generated by [square]"
  , weight := if index ≠ 0 then (index : Int)
              else if pkgIsList then 1 else (pkgKeys : Int) }

/-- Embedding of `struct.bundle.reduce(function bundle(memo, file, index)
{...}, {})` at lines 700-702. The callback body performs
`memo[file] = self.createBundle(file, index)` and returns nothing, so from
the second iteration on `memo` is `undefined` (modelled as `none`) and the
property assignment throws a `TypeError`; the object mutated on the first
iteration is discarded. -/
def bundleListReduce (pkgIsList : Bool) (pkgKeys : Nat) :
    List String → Nat → Option (List (String × ListBundle)) →
    JsOutcome (Option (List (String × ListBundle)))
  | [], _, memo => .ok memo
  | file :: rest, index, memo =>
    match memo with
    | none => .typeError
    | some m =>
      let _assigned := m ++ [(file, createBundle pkgIsList pkgKeys file index)]
      bundleListReduce pkgIsList pkgKeys rest (index + 1) none

/-- The list branch of `Square.prototype.parse`: lines 699-703 rebuild
`struct.bundle` through the reduce above, and line 718 then evaluates
`Object.keys(struct.bundle)`, which throws when the reduce left
`undefined` behind. -/
def parseBundleList (pkgIsList : Bool) (pkgKeys : Nat) (files : List String) :
    JsOutcome (List (String × ListBundle)) :=
  match bundleListReduce pkgIsList pkgKeys files 0 (some []) with
  | .typeError => .typeError
  | .ok none => .typeError
  | .ok (some m) => .ok m

/-- C5: parsing a manifest whose `bundle` is a non-empty list never
produces the claimed per-path bundle map — the reduce callback does not
return its accumulator, so parse throws a `TypeError` (on the second
iteration's property assignment, or on `Object.keys(undefined)` when the
list has a single entry). Shown at the concrete failing input
`["a.js", "b.js"]` and for every non-empty list. -/
theorem bundle_list_parse_bug :
    parseBundleList true 0 ["a.js", "b.js"] = .typeError ∧
    (∀ (pkgIsList : Bool) (pkgKeys : Nat) (file : String) (files : List String),
      parseBundleList pkgIsList pkgKeys (file :: files) = .typeError) := by
  refine ⟨rfl, ?_⟩
  intro pkgIsList pkgKeys file files
  cases files <;> rfl

/-! ## C6 — `Square.prototype.template` (lib/square.js lines 1343-1377). -/

/-- JavaScript truthiness for the values of this development. -/
def truthy : JsVal → Bool
  | .jsUndefined => false
  | .str s => s ≠ ""
  | .num n => n ≠ 0
  | .obj _ => true
  | .arr _ => true

/-- Decimal reading of a path segment, for array indexing. -/
def jsToNat? (s : String) : Option Nat :=
  if s ≠ "" ∧ s.toList.all Char.isDigit then
    some (s.toList.foldl (fun n c => n * 10 + (c.toNat - Char.toNat '0')) 0)
  else none

/-- One property access `structure[+paths[i] || paths[i]]`: reading any
property of `undefined` throws, primitives yield `undefined`, objects look
the key up, and arrays interpret the key numerically (JavaScript resolves
`arr["0"]` and `arr[0]` alike). -/
def getProp : JsVal → String → JsOutcome JsVal
  | .jsUndefined, _ => .typeError
  | .str _, _ => .ok .jsUndefined
  | .num _, _ => .ok .jsUndefined
  | .obj fields, key => .ok ((jsProp? fields key).getD .jsUndefined)
  | .arr elems, key =>
    match jsToNat? key with
    | some i => .ok ((elems.get? i).getD .jsUndefined)
    | none => .ok .jsUndefined

/-- The `for` loop of `getObjectByKey` (lines 1366-1369): walk the dotted
path, each step reading a property of the previous step's result. -/
def foldPaths : JsVal → List String → JsOutcome JsVal
  | v, [] => .ok v
  | v, p :: ps =>
    match getProp v p with
    | .typeError => .typeError
    | .ok v' => foldPaths v' ps

/-- Does the string contain the character (`~str.indexOf(c)` truthiness)? -/
def jsHasChar (s : String) (c : Char) : Bool :=
  s.toList.contains c

/-- Embedding of `getObjectByKey` (lines 1360-1372): a key without a dot is
read directly; otherwise the dotted path is walked and, when the walk ends
on a falsy value, `data[prop]` (the whole dotted string as a literal key)
is the fallback. -/
def getObjectByKey (data : JsVal) (prop : String) : JsOutcome JsVal :=
  if prop = "" ∨ jsHasChar prop '.' = false then getProp data prop
  else
    match foldPaths data (jsSplit (fun c => c = '.') prop) with
    | .typeError => .typeError
    | .ok r => if truthy r then .ok r else getProp data prop

/-- JavaScript string coercion of the values this development models. -/
def jsToString : JsVal → String
  | .jsUndefined => "undefined"
  | .str s => s
  | .num n => toString n
  | .obj _ => "[object Object]"
  | .arr _ => ""

/-- The capture of the placeholder regex `\x7b([^\x7b]+?)\x7d`, scanning
lazily from an opening brace: at least one character that is not an
opening brace, ended by the first closing brace. -/
def grabProp : List Char → List Char → Option (String × List Char)
  | [], _ => none
  | c :: rest, acc =>
    if c = '}' then (if acc = [] then none else some (acc.reverse.asString, rest))
    else if c = '{' then none
    else grabProp rest (c :: acc)

/-- The global replace of `Square.prototype.template` (lines 1374-1376):
each placeholder is replaced by the looked-up value coerced to a string, or
the empty string when the value is falsy; a thrown lookup propagates. The
`fuel` argument only drives the recursion; every step consumes at least one
character, so `template` below supplies enough for the whole string. -/
def templateGo (data : JsVal) : Nat → List Char → JsOutcome (List Char)
  | _, [] => .ok []
  | 0, _ :: _ => .ok []
  | fuel + 1, c :: rest =>
    if c = '{' then
      match grabProp rest [] with
      | some (prop, rest2) =>
        match getObjectByKey data prop with
        | .typeError => .typeError
        | .ok v =>
          match templateGo data fuel rest2 with
          | .typeError => .typeError
          | .ok out => .ok ((if truthy v then (jsToString v).toList else []) ++ out)
      | none =>
        match templateGo data fuel rest with
        | .typeError => .typeError
        | .ok out => .ok (c :: out)
    else
      match templateGo data fuel rest with
      | .typeError => .typeError
      | .ok out => .ok (c :: out)

/-- `Square.prototype.template` (lines 1343-1377). -/
def template (s : String) (data : JsVal) : JsOutcome String :=
  match templateGo data s.toList.length s.toList with
  | .typeError => .typeError
  | .ok out => .ok out.asString

/-- C6 counterexample: the claim says template never throws for a missing
key, but resolving `"{a.b}"` against the empty object reads property `"b"`
of `undefined` and throws a `TypeError`. -/
theorem template_counterexample :
    template "{a.b}" (.obj []) = JsOutcome.typeError := rfl

/-- C6 amended: template replaces each dotted-path placeholder with the
value at that path (numeric segments index arrays) and substitutes the
empty string when a dot-free key is missing — such lookups never throw —
but a dotted path whose intermediate segment is unresolved throws a
`TypeError` (see `template_counterexample`). -/
theorem template_resolution :
    template "{a.b}" (.obj [("a", .obj [("b", .str "ok")])]) = .ok "ok" ∧
    template "{missing}" (.obj []) = .ok "" ∧
    template "{baz.0.foo}" (.obj [("baz", .arr [.obj [("foo", .str "bar")]])]) = .ok "bar" ∧
    (∀ (fields : List (String × JsVal)) (prop : String),
      jsHasChar prop '.' = false →
      ∃ v, getObjectByKey (.obj fields) prop = .ok v) := by
  refine ⟨rfl, rfl, rfl, ?_⟩
  intro fields prop h
  refine ⟨(jsProp? fields prop).getD .jsUndefined, ?_⟩
  simp [getObjectByKey, h, getProp]

/-- Witness for `template_resolution`: the dot-free key `"missing"` on the
empty object resolves (to `undefined`) without throwing. -/
theorem template_resolution_witness :
    jsHasChar "missing" '.' = false ∧
    ∃ v, getObjectByKey (.obj []) "missing" = JsOutcome.ok v :=
  ⟨by decide, template_resolution.2.2.2 [] "missing" (by decide)⟩

/-! ## C7 — bundle weights and tree order
(lib/square.js lines 714-795). -/

/-- A bundle as it sits in the dependency tree. -/
structure TreeBundle where
  location : String
  weight : Int
deriving DecidableEq, Repr

/-- Modelled from the spec: `helper.weight` (lib/helpers.js) is not under
src/. Per spec §3 a Bundle's weight is "integer, explicit or derived" and
the "Weight default when unset" is "(remaining-bundle-count-at-parse-time)";
the call site (line 744) passes the declared weight, or the falsy fallback,
together with the decremented remaining count `size--`. -/
def bundleWeight (declared : Option Int) (remaining : Nat) : Int :=
  match declared with
  | some w => w
  | none => (remaining : Int)

/-- The weight-assignment pass of `Square.prototype.parse` over the
declared bundles, with `size` starting at the bundle count (line 718) and
decreasing by one per bundle (line 744). -/
def assignWeightsGo : List (String × Option Int) → Nat → List TreeBundle
  | [], _ => []
  | (loc, w) :: rest, size => ⟨loc, bundleWeight w size⟩ :: assignWeightsGo rest (size - 1)

/-- Weights for a whole manifest, in declaration order. -/
def assignWeights (bundles : List (String × Option Int)) : List TreeBundle :=
  assignWeightsGo bundles bundles.length

/-- The comparator of line 785, `b.weight - a.weight`, as an ordering:
`a` sorts no later than `b` when its weight is at least `b`'s. -/
def treeOrder (a b : TreeBundle) : Prop := b.weight ≤ a.weight

instance : DecidableRel treeOrder := fun a b => Int.decLe b.weight a.weight

instance : IsTotal TreeBundle treeOrder := ⟨fun a b => le_total b.weight a.weight⟩

instance : IsTrans TreeBundle treeOrder := ⟨fun _ _ _ h1 h2 => le_trans h2 h1⟩

/-- `tree.sort(function sort(a, b) { return b.weight - a.weight; })`
(lines 784-786), modelled as a stable sort consistent with the
comparator. -/
def sortTree (tree : List TreeBundle) : List TreeBundle :=
  tree.insertionSort treeOrder

theorem assignWeightsGo_none_sorted (locs : List String) :
    ∀ size : Nat,
      List.Sorted treeOrder (assignWeightsGo (locs.map fun loc => (loc, none)) size) ∧
      ∀ b ∈ assignWeightsGo (locs.map fun loc => (loc, none)) size,
        b.weight ≤ (size : Int) := by
  induction locs with
  | nil => intro size; simp [assignWeightsGo]
  | cons loc rest ih =>
    intro size
    simp only [List.map_cons, assignWeightsGo, List.sorted_cons]
    refine ⟨⟨?_, (ih (size - 1)).1⟩, ?_⟩
    · intro b hb
      have := (ih (size - 1)).2 b hb
      have hle : ((size - 1 : Nat) : Int) ≤ (size : Int) := by
        exact_mod_cast Nat.sub_le size 1
      simpa [treeOrder, bundleWeight] using le_trans this hle
    · intro b hb
      simp only [List.mem_cons] at hb
      rcases hb with rfl | hb
      · simp [bundleWeight]
      · have := (ih (size - 1)).2 b hb
        have hle : ((size - 1 : Nat) : Int) ≤ (size : Int) := by
          exact_mod_cast Nat.sub_le size 1
        exact le_trans this hle

/-- C7: the tree built by parse is sorted in descending order of bundle
weight, and when no bundle declares an explicit weight the defaulted
weights (remaining bundle count at parse time) are already descending, so
sorting leaves the tree in manifest declaration order. -/
theorem tree_weight_order :
    (∀ tree : List TreeBundle, List.Sorted treeOrder (sortTree tree)) ∧
    (∀ locs : List String,
      sortTree (assignWeights (locs.map fun loc => (loc, none))) =
        assignWeights (locs.map fun loc => (loc, none))) := by
  constructor
  · intro tree
    exact List.sorted_insertionSort treeOrder tree
  · intro locs
    exact List.Sorted.insertionSort_eq
      ((assignWeightsGo_none_sorted locs (locs.map fun loc => (loc, none)).length).1)

/-! ## Directive resolution — `Square.prototype.directive`
(lib/square.js lines 1094-1184), with `Square.prototype.commentWrap`
(lines 1518-1539) and the `reqparse` regular expression (line 54). -/

/-- `path.resolve(reference, file)` for the clean paths of this
development: an absolute file stands alone, a relative one is appended to
the reference directory (no `.`/`..` segments are used by the claims). -/
def pathResolve (reference file : String) : String :=
  if jsCharAt file 0 = some '/' then file else reference ++ "/" ++ file

/-- `path.dirname`: everything before the last slash (`"."` when there is
no slash, `"/"` for a file at the root). -/
def pathDirname (location : String) : String :=
  match location.toList.reverse.dropWhile (fun c => c ≠ '/') with
  | [] => "."
  | _ :: rev => if rev = [] then "/" else rev.reverse.asString

/-- Comment delimiters for one extension. -/
structure CommentStyle where
  header : String
  body : String
  footer : String

/-- Modelled from the spec: the Comment-Style Table (lib/comments.js, not
under src/) is a "static mapping from file extension to comment delimiter
triples (header/body/footer)"; the script and style-sheet extensions both
use block comments. -/
def commentStyles : String → Option CommentStyle
  | "js" => some ⟨"/*", " *", " */"⟩
  | "css" => some ⟨"/*", " *", " */"⟩
  | _ => none

/-- Embedding of `Square.prototype.commentWrap` (lines 1518-1539): the data
is split on the character class `[\n|\r]` (literally including `|`), each
line is wrapped according to its position, and the pieces are joined with
newlines; an extension without a comment style yields the empty string. -/
def commentWrap (data extension : String) : String :=
  match commentStyles extension with
  | none => ""
  | some style =>
    let lines := jsSplit (fun c => c = '\n' || c = '|' || c = '\r') data
    String.intercalate "\n" (lines.mapIdx fun i line =>
      let header := i = 0
      let footer := i + 1 = lines.length
      if header ∧ footer then "\n" ++ style.header ++ " " ++ line ++ style.footer ++ "\n"
      else if header then "\n" ++ style.header ++ "\n" ++ style.body ++ " " ++ line
      else if footer then style.body ++ " " ++ line ++ "\n" ++ style.footer ++ "\n"
      else style.body ++ " " ++ line)

/-- Case-insensitive literal match: consumes `lit` from the front of `cs`
and returns the remainder. -/
def dropCI : List Char → List Char → Option (List Char)
  | [], cs => some cs
  | _ :: _, [] => none
  | l :: ls, c :: cs => if l.toLower = c.toLower then dropCI ls cs else none

/-- The `(require|import|include)` alternation of `reqparse`. -/
def matchStatement (cs : List Char) : Option (String × List Char) :=
  match dropCI "require".toList cs with
  | some rest => some ("require", rest)
  | none =>
    match dropCI "import".toList cs with
    | some rest => some ("import", rest)
    | none =>
      match dropCI "include".toList cs with
      | some rest => some ("include", rest)
      | none => none

/-- Matching of the `reqparse` regular expression
`(\/\*|\/\/)\s*\[square\]\s*\@(require|import|include)\s*\"([^"]+)?\"(.*)`
(case-insensitive) starting exactly at the head of `cs`, yielding the
statement name and the quoted file. -/
def matchFrom (cs : List Char) : Option (String × String) :=
  let comment :=
    match dropCI "/*".toList cs with
    | some rest => some rest
    | none => dropCI "//".toList cs
  match comment with
  | none => none
  | some cs =>
    match dropCI "[square]".toList (cs.dropWhile jsIsSpace) with
    | none => none
    | some cs =>
      match dropCI "@".toList (cs.dropWhile jsIsSpace) with
      | none => none
      | some cs =>
        match matchStatement cs with
        | none => none
        | some (stmt, cs) =>
          match dropCI "\"".toList (cs.dropWhile jsIsSpace) with
          | none => none
          | some cs =>
            let file := cs.takeWhile (fun c => c ≠ '"')
            match dropCI "\"".toList (cs.drop file.length) with
            | none => none
            | some _ => some (stmt, file.asString)

/-- Leftmost match of `reqparse` in a line: the characters before the
match, the statement and the quoted file (`none` models a failing
`reqparse.test`). -/
def findDir : List Char → Option (List Char × String × String)
  | [] => none
  | c :: rest =>
    match matchFrom (c :: rest) with
    | some (stmt, file) => some ([], stmt, file)
    | none =>
      match findDir rest with
      | some (p, stmt, file) => some (c :: p, stmt, file)
      | none => none

/-- Does `p` begin the string `s`? -/
def sStartsWith (s p : String) : Bool :=
  p.toList.isPrefixOf s.toList

/-- Embedding of `prev(index, lines)` (lines 1143-1153): the last entry of
the assembled output whose trimmed text is non-empty and is not a comment
line, together with its index. -/
def prevLineAux : List String → Option (String × Nat)
  | [] => none
  | l :: rest =>
    match prevLineAux rest with
    | some (s, i) => some (s, i + 1)
    | none =>
      let t := jsTrim l
      if t ≠ "" ∧ sStartsWith t "//" = false ∧ sStartsWith t "/*" = false
      then some (t, 0)
      else none

/-- An error emitted through `Square.prototype.critical` during directive
processing: a missing include target or a recursive include. -/
inductive SqErr where
  | directiveMissing (statement file : String)
  | recursiveImport (matched : String)
deriving DecidableEq, Repr

/-- The mutable state threaded through directive resolution: the `seen`
array (shared by every recursive call of one top-level resolution) and the
errors emitted so far. -/
structure DirState where
  seen : List String
  errors : List SqErr
deriving DecidableEq, Repr

/-- Lookup in the modelled file system (`fs.existsSync` /
`fs.readFileSync`). -/
def fsLookup (fs : List (String × String)) (location : String) : Option String :=
  (fs.find? (fun p => p.1 = location)).map (fun p => p.2)

/-- Embedding of the nested `insert` callback (lines 1111-1133): resolve
the quoted file against the reference directory; a missing target or an
already-seen location emits a critical error and substitutes the string
`"false"` (the return value `false` coerced by `String.replace`);
otherwise the location is marked seen and the wrapped file content is
recursively resolved (`recurse` stands for `self.directive`). -/
def insertDirective (fs : List (String × String)) (ext : String)
    (recurse : String → String → DirState → Option (String × DirState))
    (reference stmt file matched : String) (st : DirState) :
    Option (String × DirState) :=
  let location := pathResolve reference file
  match fsLookup fs location with
  | none => some ("false", ⟨st.seen, st.errors ++ [.directiveMissing stmt file]⟩)
  | some fileData =>
    if location ∈ st.seen then
      some ("false", ⟨st.seen, st.errors ++ [.recursiveImport matched]⟩)
    else
      let d := commentWrap ("[square] directive: " ++ location) ext ++ jsTrim fileData
      recurse d (pathDirname location) ⟨st.seen ++ [location], st.errors⟩

/-- Embedding of the `scan` callback (lines 1158-1181): a line without a
directive is pushed as is; a directive line is replaced by the resolved
content and, for the `js` extension only, when the previous non-comment
line does not end in `;` and the replaced content is non-empty and does
not start with `;`, that previous line is rewritten with a `;`
appended. -/
def scanStep (fs : List (String × String)) (ext : String)
    (recurse : String → String → DirState → Option (String × DirState))
    (reference : String) (acc : List String × DirState) (line : String) :
    Option (List String × DirState) :=
  match findDir line.toList with
  | none => some (acc.1 ++ [line], acc.2)
  | some (pre, stmt, file) =>
    let last := prevLineAux acc.1
    let matched := (line.toList.drop pre.length).asString
    match insertDirective fs ext recurse reference stmt file matched acc.2 with
    | none => none
    | some (ins, st) =>
      let content := pre.asString ++ ins
      let assemble :=
        match last with
        | some (lline, lidx) =>
          if ext = "js" ∧ jsLastChar lline ≠ some ';' ∧ content ≠ "" ∧
              jsCharAt content 0 ≠ some ';'
          then acc.1.set lidx (lline ++ ";")
          else acc.1
        | none => acc.1
      some (assemble ++ [content], st)

/-- Embedding of `Square.prototype.directive` (lines 1094-1184): the data
is split on `\n` or `\r`, every line is scanned (threading the shared
`seen`/error state), and the assembled lines are joined and trimmed. The
`fuel` argument bounds the include depth; since every recursive call marks
a previously unseen file, `fuel` exceeding the file-system size never runs
out, and `none` models only fuel exhaustion. -/
def directiveGo (fs : List (String × String)) (ext : String) :
    Nat → String → String → DirState → Option (String × DirState)
  | 0, _, _, _ => none
  | fuel + 1, data, reference, st =>
    match (jsSplit (fun c => c = '\n' || c = '\r') data).foldlM
        (scanStep fs ext (fun d r s => directiveGo fs ext fuel d r s) reference)
        ([], st) with
    | none => none
    | some (assemble, st') => some (jsTrim (String.intercalate "\n" assemble), st')

/-- Top-level directive resolution with always-sufficient fuel and a fresh
`seen` array (line 1095). -/
def directive (fs : List (String × String)) (ext data reference : String) :
    Option (String × DirState) :=
  directiveGo fs ext (fs.length + 1) data reference ⟨[], []⟩

/-! ## Theorems about C4 -/

/-- A two-file cycle: `a.js` includes `b.js` and `b.js` includes
`a.js`. -/
def cycleFS : List (String × String) :=
  [("/proj/a.js", "// [square] @require \"b.js\""),
   ("/proj/b.js", "// [square] @require \"a.js\"")]

/-- C4: directive resolution detects include cycles. First, in general: as
soon as the resolved absolute path of an include is already present in the
`seen` array of the active resolution chain (and the target exists), the
resolver emits a recursive-import error and substitutes `"false"` without
recursing — the conclusion does not depend on `recurse` at all. Second, on
the concrete two-file cycle the resolution terminates for every sufficient
fuel with exactly one recursive-import error, having visited each file
once. -/
theorem directive_cycle_detected :
    (∀ (fs : List (String × String)) (ext : String)
        (recurse : String → String → DirState → Option (String × DirState))
        (reference stmt file matched : String) (st : DirState),
      fsLookup fs (pathResolve reference file) ≠ none →
      pathResolve reference file ∈ st.seen →
      insertDirective fs ext recurse reference stmt file matched st =
        some ("false", ⟨st.seen, st.errors ++ [.recursiveImport matched]⟩)) ∧
    (∀ fuel : Nat,
      directiveGo cycleFS "js" (fuel + 3)
          "// [square] @require \"b.js\"" "/proj" ⟨[], []⟩ =
        some ("/* [square] directive: /proj/b.js */\n/* [square] directive: /proj/a.js */\nfalse",
          ⟨["/proj/b.js", "/proj/a.js"],
           [.recursiveImport "// [square] @require \"b.js\""]⟩)) := by
  constructor
  · intro fs ext recurse reference stmt file matched st hexists hseen
    unfold insertDirective
    cases hfs : fsLookup fs (pathResolve reference file) with
    | none => exact absurd hfs hexists
    | some fileData => simp [hfs, hseen]
  · intro fuel
    rfl

/-- Witness for `directive_cycle_detected`: re-including `/proj/b.js` while
it is already in the `seen` chain yields the recursive-import error. -/
theorem directive_cycle_detected_witness :
    fsLookup cycleFS (pathResolve "/proj" "b.js") ≠ none ∧
    pathResolve "/proj" "b.js" ∈ ["/proj/b.js"] ∧
    insertDirective cycleFS "js" (fun _ _ _ => none) "/proj" "require" "b.js"
        "// [square] @require \"b.js\"" ⟨["/proj/b.js"], []⟩ =
      some ("false", ⟨["/proj/b.js"],
        [.recursiveImport "// [square] @require \"b.js\""]⟩) :=
  ⟨by decide, by decide,
   directive_cycle_detected.1 cycleFS "js" (fun _ _ _ => none) "/proj" "require"
     "b.js" "// [square] @require \"b.js\"" ⟨["/proj/b.js"], []⟩
     (by decide) (by decide)⟩

/-! ## Theorems about C8 -/

theorem scanStep_appends_of_ne_js (fs : List (String × String)) (ext : String)
    (recurse : String → String → DirState → Option (String × DirState))
    (reference : String) (hext : ext ≠ "js") (acc : List String × DirState)
    (line : String) (r : List String × DirState)
    (h : scanStep fs ext recurse reference acc line = some r) :
    ∃ c, r.1 = acc.1 ++ [c] := by
  unfold scanStep at h
  cases hfind : findDir line.toList with
  | none =>
    rw [hfind] at h
    exact ⟨line, by simp [← Option.some_inj.mp h]⟩
  | some pf =>
    obtain ⟨pre, stmt, file⟩ := pf
    rw [hfind] at h
    dsimp only at h
    cases hins : insertDirective fs ext recurse reference stmt file
        ((line.toList.drop pre.length).asString) acc.2 with
    | none => rw [hins] at h; cases h
    | some insSt =>
      obtain ⟨ins, st2⟩ := insSt
      rw [hins] at h
      cases hprev : prevLineAux acc.1 with
      | none =>
        simp only [hprev] at h
        exact ⟨pre.asString ++ ins, by simp [← Option.some_inj.mp h]⟩
      | some li =>
        obtain ⟨lline, lidx⟩ := li
        simp only [hprev] at h
        rw [if_neg (fun hc => hext hc.1)] at h
        exact ⟨pre.asString ++ ins, by simp [← Option.some_inj.mp h]⟩

theorem scanFold_preserves_of_ne_js (fs : List (String × String)) (ext : String)
    (recurse : String → String → DirState → Option (String × DirState))
    (reference : String) (hext : ext ≠ "js") :
    ∀ (lines assemble : List String) (st : DirState)
      (result : List String × DirState),
      lines.foldlM (scanStep fs ext recurse reference) (assemble, st) = some result →
      ∃ tail, result.1 = assemble ++ tail := by
  intro lines
  induction lines with
  | nil =>
    intro assemble st result h
    simp only [List.foldlM_nil, Option.pure_def, Option.some_inj] at h
    exact ⟨[], by simp [← h]⟩
  | cons l ls ih =>
    intro assemble st result h
    simp only [List.foldlM_cons] at h
    cases hstep : scanStep fs ext recurse reference (assemble, st) l with
    | none => rw [hstep] at h; cases h
    | some acc' =>
      rw [hstep] at h
      obtain ⟨c, hc⟩ := scanStep_appends_of_ne_js fs ext recurse reference hext
        (assemble, st) l acc' hstep
      obtain ⟨tail, htail⟩ := ih acc'.1 acc'.2 result (by simpa using h)
      exact ⟨c :: tail, by simp [htail, hc]⟩

/-- The single-file system of the C8 scenarios. -/
def repairFS : List (String × String) := [("/proj/b.js", "var b = 2")]

/-- C8: the semicolon repair of directive resolution. For the `js`
extension, inserting resolved content after the non-comment line
`"var a = f()"` (no trailing terminator, inserted content starting with a
comment) appends a `;` to that line; the same input under the `css`
extension leaves the line untouched — in general, for any extension other
than `js`, the scan only ever appends to the assembled output, never
rewriting a previous line; and even for `js` no repair happens when the
replaced content itself starts with `;`. -/
theorem directive_semicolon_repair :
    (∀ (fs : List (String × String)) (ext : String)
        (recurse : String → String → DirState → Option (String × DirState))
        (reference : String), ext ≠ "js" →
      ∀ (lines assemble : List String) (st : DirState)
        (result : List String × DirState),
        lines.foldlM (scanStep fs ext recurse reference) (assemble, st) = some result →
        ∃ tail, result.1 = assemble ++ tail) ∧
    directiveGo repairFS "js" 5
        "var a = f()\n// [square] @require \"b.js\"" "/proj" ⟨[], []⟩ =
      some ("var a = f();\n/* [square] directive: /proj/b.js */\nvar b = 2",
        ⟨["/proj/b.js"], []⟩) ∧
    directiveGo repairFS "css" 5
        "var a = f()\n// [square] @require \"b.js\"" "/proj" ⟨[], []⟩ =
      some ("var a = f()\n/* [square] directive: /proj/b.js */\nvar b = 2",
        ⟨["/proj/b.js"], []⟩) ∧
    directiveGo repairFS "js" 5
        "var a = f()\n;// [square] @require \"b.js\"" "/proj" ⟨[], []⟩ =
      some ("var a = f()\n;/* [square] directive: /proj/b.js */\nvar b = 2",
        ⟨["/proj/b.js"], []⟩) :=
  ⟨fun fs ext recurse reference hext =>
    scanFold_preserves_of_ne_js fs ext recurse reference hext, rfl, rfl, rfl⟩

/-- Witness for `directive_semicolon_repair`: the `css` extension differs
from `js`, and an empty scan preserves the assembled lines. -/
theorem directive_semicolon_repair_witness :
    ("css" : String) ≠ "js" ∧
    ∃ tail, (["var a = f()"] : List String) = ["var a = f()"] ++ tail :=
  ⟨by decide,
   directive_semicolon_repair.1 repairFS "css" (fun _ _ _ => none) "/proj"
     (by decide) [] ["var a = f()"] ⟨[], []⟩ (["var a = f()"], ⟨[], []⟩) rfl⟩

/-! ## C9 — `Square.prototype.tag` and the expiring cache
(lib/square.js lines 1386-1424, cache lifecycle in `build`,
lines 1193-1290). -/

/-- The `'3 minutes'` time-to-live of the cache created at line 81, in
milliseconds. -/
def cacheTTL : Nat := 180000

/-- One cache entry: spec §3, "Cache Entry: {key, value, expiry}; entries
expire after a fixed TTL from creation". -/
structure CacheEntry where
  key : String
  value : String
  expiry : Nat
deriving DecidableEq, Repr

/-- Modelled from the spec: the Expiring Cache (the external `expirable`
module) is a "generic time-to-live key/value store"; a freshly started
cache (as `build` starts one per invocation, line 1282) is empty. -/
structure ExpCache where
  entries : List CacheEntry
deriving DecidableEq, Repr

/-- Cache lookup at time `now`: the most recent unexpired entry for the
key. -/
def cacheGet (c : ExpCache) (now : Nat) (key : String) : Option String :=
  (c.entries.find? (fun e => e.key = key && decide (now < e.expiry))).map
    (fun e => e.value)

/-- `cache.has(key)`: an unexpired entry exists. -/
def cacheHas (c : ExpCache) (now : Nat) (key : String) : Bool :=
  (cacheGet c now key).isSome

/-- `cache.set(key, value)` at time `now`: stores the value, expiring one
TTL later; `set` returns the stored value, which the source assigns back
(lines 1396, 1400). -/
def cacheSet (c : ExpCache) (now : Nat) (key value : String) : ExpCache :=
  ⟨⟨key, value, now + cacheTTL⟩ :: c.entries⟩

/-- Generic association-list assignment (first binding replaced in place,
otherwise appended). -/
def assocSet {α : Type} : List (String × α) → String → α → List (String × α)
  | [], k, v => [(k, v)]
  | (k', v') :: rest, k, v =>
    if k' = k then (k, v) :: rest else (k', v') :: assocSet rest k v

/-- Generic association-list lookup. -/
def assocGet? {α : Type} (o : List (String × α)) (k : String) : Option α :=
  (o.find? (fun p => p.1 = k)).map (fun p => p.2)

/-- lodash `_.extend` over string-valued property bags. -/
def extendAssoc {α : Type} (target source : List (String × α)) :
    List (String × α) :=
  source.foldl (fun o p => assocSet o p.1 p.2) target

/-- Characters of the `[\w\.]` class. -/
def isWordDot (c : Char) : Bool :=
  c.isAlphanum || c = '_' || c = '.'

/-- Characters of the `\w` class. -/
def isWordChar (c : Char) : Bool :=
  c.isAlphanum || c = '_'

/-- Case-sensitive literal match, consuming `lit` from the front. -/
def dropLit : List Char → List Char → Option (List Char)
  | [], cs => some cs
  | _ :: _, [] => none
  | l :: ls, c :: cs => if l = c then dropLit ls cs else none

/-- The capture of `/\*\s([\w\.]+)/` (line 1404): first `*` followed by a
whitespace character and at least one word-or-dot character. -/
def findStarCap : List Char → Option (List Char)
  | [] => none
  | c :: rest =>
    if c = '*' then
      match rest with
      | [] => none
      | s :: rest2 =>
        if jsIsSpace s then
          let cap := rest2.takeWhile isWordDot
          if cap = [] then findStarCap rest else some cap
        else findStarCap rest
    else findStarCap rest

/-- The branch-name extraction of lines 1403-1406: the capture when the
regular expression matches, the empty string otherwise. -/
def parseBranchName (raw : String) : String :=
  match findStarCap raw.toList with
  | some cap => cap.asString
  | none => ""

/-- The capture of `/commit\s(\w+)/` (line 1409). -/
def findCommitCap : List Char → Option (List Char)
  | [] => none
  | c :: rest =>
    match dropLit "commit".toList (c :: rest) with
    | some cs =>
      match cs with
      | s :: cs2 =>
        if jsIsSpace s then
          let cap := cs2.takeWhile isWordChar
          if cap = [] then findCommitCap rest else some cap
        else findCommitCap rest
      | [] => findCommitCap rest
    | none => findCommitCap rest

/-- The commit-id extraction of lines 1408-1411. -/
def parseShaName (raw : String) : String :=
  match findCommitCap raw.toList with
  | some cap => cap.asString
  | none => ""

/-- One cached VCS lookup inside `tag` (lines 1391-1400): the cached value
when present, otherwise the external collaborator is invoked (recorded in
the command log) and its output cached. -/
def tagVcs (cache : ExpCache) (now : Nat) (key cmd cmdOutput : String) :
    String × ExpCache × List String :=
  match cacheGet cache now key with
  | some v => (v, cache, [])
  | none => (cmdOutput, cacheSet cache now key cmdOutput, [cmd])

/-- The ambient identifiers `tag` reads (calendar date and year, invoking
user, host name, environment), injected explicitly. -/
structure Ambient where
  date : String
  year : String
  user : String
  host : String
  env : String
deriving DecidableEq, Repr

/-- Embedding of `Square.prototype.tag` (lines 1386-1424): the collection
is merged with the configured tags, branch and commit output are obtained
through the cache (invoking the VCS collaborator only on a miss), parsed,
and assembled — with `md5f` standing for the external md5 hash and the
`|| 'js'` / `|| ''` falsy fallbacks made explicit. Returns the property
bag, the updated cache and the log of collaborator invocations. -/
def tag (md5f : String → String) (amb : Ambient)
    (cfgTags collection : List (String × String))
    (execBranch execShow : String) (cache : ExpCache) (now : Nat) :
    List (String × String) × ExpCache × List String :=
  let tags := extendAssoc collection cfgTags
  let b := tagVcs cache now "git branch" "git branch" execBranch
  let s := tagVcs b.2.1 now "git show" "git show -s" execShow
  let branch := if b.1 ≠ "" then parseBranchName b.1 else b.1
  let sha := if s.1 ≠ "" then parseShaName s.1 else s.1
  let ext :=
    match assocGet? collection "extension" with
    | some e => if e = "" then "js" else e
    | none => "js"
  let bag := extendAssoc (extendAssoc [("type", "min")]
      [("md5", md5f ((assocGet? collection "content").getD "")),
       ("branch", branch), ("sha", sha), ("ext", ext),
       ("date", amb.date), ("year", amb.year), ("user", amb.user),
       ("host", amb.host), ("env", amb.env)]) tags
  (bag, s.2.1, b.2.2 ++ s.2.2)

/-- C9: within one build — the cache freshly started, both calls before
the entries expire — the first `tag` call invokes the VCS collaborator
once for the branch and once for the commit, and a second `tag` call
invokes no collaborator at all and produces the very same property bag
(whatever the collaborator would now return): each external call happens
at most once per build. -/
theorem tag_vcs_cached (md5f : String → String) (amb : Ambient)
    (cfgTags collection : List (String × String))
    (execBranch execShow execBranch2 execShow2 : String) (t1 t2 : Nat)
    (_h1 : t1 ≤ t2) (h2 : t2 < t1 + cacheTTL) :
    (tag md5f amb cfgTags collection execBranch execShow ⟨[]⟩ t1).2.2 =
      ["git branch", "git show -s"] ∧
    (tag md5f amb cfgTags collection execBranch2 execShow2
        (tag md5f amb cfgTags collection execBranch execShow ⟨[]⟩ t1).2.1 t2).2.2 =
      [] ∧
    (tag md5f amb cfgTags collection execBranch2 execShow2
        (tag md5f amb cfgTags collection execBranch execShow ⟨[]⟩ t1).2.1 t2).1 =
      (tag md5f amb cfgTags collection execBranch execShow ⟨[]⟩ t1).1 := by
  refine ⟨rfl, ?_, ?_⟩ <;>
    simp [tag, tagVcs, cacheGet, cacheSet, List.find?, h2]

/-- Witness for `tag_vcs_cached`: two tag calls at times 0 and 1 of the
same build. -/
theorem tag_vcs_cached_witness :
    (0 : Nat) ≤ 1 ∧ 1 < 0 + cacheTTL ∧
    ((tag id ⟨"", "", "", "", ""⟩ [] [] "* master" "commit abc" ⟨[]⟩ 0).2.2 =
        ["git branch", "git show -s"] ∧
      (tag id ⟨"", "", "", "", ""⟩ [] [] "* other" "commit xyz"
          (tag id ⟨"", "", "", "", ""⟩ [] [] "* master" "commit abc" ⟨[]⟩ 0).2.1 1).2.2 =
        [] ∧
      (tag id ⟨"", "", "", "", ""⟩ [] [] "* other" "commit xyz"
          (tag id ⟨"", "", "", "", ""⟩ [] [] "* master" "commit abc" ⟨[]⟩ 0).2.1 1).1 =
        (tag id ⟨"", "", "", "", ""⟩ [] [] "* master" "commit abc" ⟨[]⟩ 0).1) :=
  ⟨by decide, by decide,
   tag_vcs_cached id ⟨"", "", "", "", ""⟩ [] [] "* master" "commit abc"
     "* other" "commit xyz" 0 1 (by decide) (by decide)⟩

end SquareJS
